import Mathlib

/-!
# Verification of the Typist runtime schema-validation engine

This file gives a shallow embedding, in Lean 4, of the two iterations of the
Typist schema engine:

* `src/types.ts` — the type-introspection primitives `typeOf` / `typesOf`;
* `src/unnamed/part_000` (namespace `Part0`) — the iteration whose property
  descriptors carry a `required` flag, a string descriptor may carry a regular
  expression, and an object descriptor owns a list of nested alternation
  schemas;
* `src/schemas.ts` (namespace `Ts`) — the iteration whose descriptors carry an
  `optional` flag and whose `_Object` owns no nested schemas.

JavaScript runtime values are modelled by the inductive type `JSVal`
(numbers as rationals, objects as association lists).  Exceptions thrown
during the schema walk are modelled with `Except`.
-/

/-- The `VariableType` union of `src/types.ts`: the closed set of type tags. -/
inductive VariableType where
  | string | number | bigint | boolean | symbol | undefined
  | object | function | array | null | any
deriving DecidableEq, Repr

/-- A JavaScript runtime value.  Numbers are modelled as rationals (the model
has no NaN and no negative zero), objects as ordered association lists of
fields, and functions and symbols as opaque atoms. -/
inductive JSVal where
  | str (s : String)
  | num (q : Rat)
  | bigint (i : Int)
  | bool (b : Bool)
  | undef
  | null
  | sym
  | func
  | arr (elems : List JSVal)
  | obj (fields : List (String × JSVal))

mutual

/-- Structural equality of runtime values, standing in for the strict
equality JavaScript's `Array.prototype.includes` applies to allow-list
members. -/
def JSVal.beq : JSVal → JSVal → Bool
  | .str a, .str b => a == b
  | .num a, .num b => a == b
  | .bigint a, .bigint b => a == b
  | .bool a, .bool b => a == b
  | .undef, .undef => true
  | .null, .null => true
  | .sym, .sym => true
  | .func, .func => true
  | .arr xs, .arr ys => JSVal.beqList xs ys
  | .obj fs, .obj gs => JSVal.beqFields fs gs
  | _, _ => false

def JSVal.beqList : List JSVal → List JSVal → Bool
  | [], [] => true
  | x :: xs, y :: ys => JSVal.beq x y && JSVal.beqList xs ys
  | _, _ => false

def JSVal.beqFields : List (String × JSVal) → List (String × JSVal) → Bool
  | [], [] => true
  | (k, x) :: xs, (l, y) :: ys => k == l && JSVal.beq x y && JSVal.beqFields xs ys
  | _, _ => false

end

instance : BEq JSVal := ⟨JSVal.beq⟩

/-- `typeOf(value)` from `src/types.ts` (single-argument overload): like
`typeof` but distinguishing `array` and `null` from `object`. -/
def typeOf : JSVal → VariableType
  | .arr _ => .array
  | .null => .null
  | .str _ => .string
  | .num _ => .number
  | .bigint _ => .bigint
  | .bool _ => .boolean
  | .undef => .undefined
  | .sym => .symbol
  | .func => .function
  | .obj _ => .object

/-- The string a type tag compares equal to when looked up in a `types[]`
array (the tags are stored as string literals in JavaScript). -/
def typeTagString : VariableType → String
  | .string => "string"
  | .number => "number"
  | .bigint => "bigint"
  | .boolean => "boolean"
  | .symbol => "symbol"
  | .undefined => "undefined"
  | .object => "object"
  | .function => "function"
  | .array => "array"
  | .null => "null"
  | .any => "any"

/-- JavaScript truthiness (`!!value`). -/
def jsTruthy : JSVal → Bool
  | .bool b => b
  | .undef => false
  | .null => false
  | .num q => q != 0
  | .str s => s != ""
  | .bigint i => i != 0
  | _ => true

mutual

/-- JavaScript's string coercion of a value, as the engine meets it: applied
by `RegExp.prototype.test` to its argument and by computed member access
(ToPropertyKey) to a non-symbol key.  An array joins the coercions of its
elements with commas, rendering `null` and `undefined` elements as empty
text; a plain data object renders as the text in square brackets; a function
renders as its source text, modelled by a fixed placeholder (real source
text always spans more than one character, so, like a number's digit
rendering, it can never collide with the one-character tokens the engine
compares against).  A number is rendered from its reduced-fraction
representation; the engine only ever compares the rendering with the tokens
"?" and "!", which no rendering of a number reaches, in the model or in
JavaScript. -/
def jsToString : JSVal → String
  | .str s => s
  | .undef => "undefined"
  | .null => "null"
  | .bool true => "true"
  | .bool false => "false"
  | .bigint i => toString i
  | .num q => if q.den = 1 then toString q.num else toString q.num ++ "/" ++ toString q.den
  | .sym => "Symbol()"
  | .func => "function"
  | .arr xs => jsArrayElemsToString xs
  | .obj _ => "[object Object]"

/-- `Array.prototype.toString`: the elements joined with commas, `null` and
`undefined` elements contributing empty text. -/
def jsArrayElemsToString : List JSVal → String
  | [] => ""
  | x :: rest =>
      (match x with
       | .null => ""
       | .undef => ""
       | v => jsToString v) ++
      (if rest.isEmpty then "" else ",") ++ jsArrayElemsToString rest

end

/-- Property access `object[key]` on an object-tagged candidate; a missing
key yields `undefined`. -/
def jsGet : JSVal → String → JSVal
  | .obj fields, key =>
      match fields.lookup key with
      | some v => v
      | none => .undef
  | _, _ => (.undef : JSVal)

/-- `typeOf(value, types)` from `src/types.ts`, with the second argument
present as an arbitrary runtime value: an array second argument selects the
boolean membership overload, `undefined` selects the classification overload,
and anything else throws a `TypeError`. -/
def typeOfImpl (value : JSVal) (types : JSVal) : Except String (VariableType ⊕ Bool) :=
  match types with
  | .undef => .ok (.inl (typeOf value))
  | .arr ts => .ok (.inr (ts.contains (.str (typeTagString (typeOf value)))))
  | _ => .error "TypeError: types parameter was supplied but it is not an array"

/-- The loop of `typesOf(values, types)`: fail on the first value whose tag is
not in the allowed set, otherwise succeed. -/
def typesAllIn (valueTypes : List VariableType) (ts : List JSVal) : Bool :=
  match valueTypes with
  | [] => true
  | t :: rest =>
      if !(ts.contains (.str (typeTagString t))) then false
      else typesAllIn rest ts

/-- `typesOf(values, types)` from `src/types.ts`, with the second argument
present as an arbitrary runtime value. -/
def typesOfImpl (values : List JSVal) (types : JSVal) :
    Except String (List VariableType ⊕ Bool) :=
  match types with
  | .undef => .ok (.inl (values.map typeOf))
  | .arr ts => .ok (.inr (typesAllIn (values.map typeOf) ts))
  | _ => .error "TypeError: types parameter was supplied but it is not an array"

/-- `Number.isInteger(value)`: true exactly on number values with no
fractional component. -/
def numberIsInteger : JSVal → Bool
  | .num q => q.den == 1
  | _ => false

/-- `compareAllowedValues` (identical in both iterations): an empty allow-list
is no restriction, a non-empty one requires membership. -/
def compareAllowedValues (allowedValues : List JSVal) (value : JSVal) : Bool :=
  allowedValues.length == 0 || allowedValues.contains value

/-! ## Iteration `src/unnamed/part_000` (`required` flag) -/

namespace Part0

/-- `compareTypes` of `part_000`: the property type matches the value type,
or the property is not required and the value is `undefined`. -/
def compareTypes (required : Bool) (propType varType : VariableType) : Bool :=
  propType == varType || (!required && varType == .undefined)

/-- `$Prop.validateBasics` of `part_000`, with the descriptor state
(`required`, `type`, `allowedValues`) passed explicitly. -/
def validateBasics (required : Bool) (type : VariableType)
    (allowedValues : List JSVal) (value : JSVal) : Bool :=
  if !(compareTypes required type (typeOf value)) then false
  else if !(compareAllowedValues allowedValues value) then false
  else true

/-- A regular expression is used by the engine only through its `test`
method, so it is modelled as the predicate that method computes on the
(string-coerced) input. -/
def Pattern : Type := String → Bool

mutual

/-- The property-descriptor classes of `part_000`, one variant per class:
`_String` (with its optional `RegExp`), `_Number`, `_Int`, `_BigInt`,
`_Boolean`, `_Undefined`, `_Object` (with its `internalSchemas`), `_Array`
and `_Function`.  Each variant stores the state its constructor stores. -/
inductive SProp where
  | strP (required : Bool) (allowedValues : List JSVal) (expression : Option Pattern)
  | numP (required : Bool) (allowedValues : List JSVal)
  | intP (required : Bool) (allowedValues : List JSVal)
  | bigP (required : Bool) (allowedValues : List JSVal)
  | boolP (required : Bool)
  | undefP
  | objP (required : Bool) (internalSchemas : List Schema)
  | arrP (required : Bool)
  | funcP (required : Bool)

/-- A `$Schema`: its `schema` field, an ordered mapping from property name
to entry. -/
inductive Schema where
  | mk (entries : List (String × SEntry))

/-- A value stored at a key of a `$Schema` after construction: a property
descriptor, a nested schema, or anything else (a malformed entry, on which
calling `.validate` throws at validation time). -/
inductive SEntry where
  | prop (p : SProp)
  | schema (s : Schema)
  | malformed (v : JSVal)

end

/-- The `schema` field of a `$Schema`. -/
def Schema.entries : Schema → List (String × SEntry)
  | .mk es => es

mutual

/-- `validate` of the descriptor classes of `part_000`.  Each non-object
variant runs `validateBasics` and then its own refinement; `_Object.validate`
runs `compareTypes` and then the nested-schema alternation. -/
def SProp.validate : SProp → JSVal → Bool
  | .strP required allowedValues expression, value =>
      if !(validateBasics required .string allowedValues value) then false
      else if (match expression with
               | some p => !(p (jsToString value))
               | none => false) then false
      else true
  | .numP required allowedValues, value =>
      if !(validateBasics required .number allowedValues value) then false
      else true
  | .intP required allowedValues, value =>
      if !(validateBasics required .number allowedValues value) then false
      else if required && !(numberIsInteger value) then false
      else true
  | .bigP required allowedValues, value =>
      if !(validateBasics required .bigint allowedValues value) then false
      else true
  | .boolP required, value =>
      if !(validateBasics required .boolean [] value) then false
      else true
  | .undefP, value =>
      if !(validateBasics false .undefined [] value) then false
      else true
  | .objP required internalSchemas, value =>
      if !(compareTypes required .object (typeOf value)) then false
      else
        let tests := Schema.mapValidate internalSchemas value
        if tests.length > 0 && tests.contains true == false then false
        else true
  | .arrP required, value =>
      if !(validateBasics required .array [] value) then false
      else true
  | .funcP required, value =>
      if !(validateBasics required .function [] value) then false
      else true

/-- `this.internalSchemas.map(x => x.validate(value))` in `_Object.validate`. -/
def Schema.mapValidate : List Schema → JSVal → List Bool
  | [], _ => []
  | s :: rest, v => Schema.validate s v :: Schema.mapValidate rest v

/-- `$Schema.validate`: the body wrapped in `try`/`catch`, with a thrown
exception converted to `false`. -/
def Schema.validate (s : Schema) (v : JSVal) : Bool :=
  match Schema.validateExc s v with
  | .ok b => b
  | .error _ => false

/-- The body of `$Schema.validate` before the `catch`: reject non-objects,
then walk the entries; an exception is an `Except.error`. -/
def Schema.validateExc : Schema → JSVal → Except Unit Bool
  | .mk entries, v =>
      if !(typeOf v == .object) then .ok false
      else Schema.walkEntries entries v

/-- The `for (const key in this.schema)` walk: each entry validates the
candidate's field at its key; a malformed entry has no `validate` method, so
reaching it throws. -/
def Schema.walkEntries : List (String × SEntry) → JSVal → Except Unit Bool
  | [], _ => .ok true
  | (key, entry) :: rest, v =>
      match entry with
      | .prop p =>
          if !(SProp.validate p (jsGet v key)) then .ok false
          else Schema.walkEntries rest v
      | .schema s =>
          if !(Schema.validate s (jsGet v key)) then .ok false
          else Schema.walkEntries rest v
      | .malformed _ => .error ()

end

end Part0

namespace Part0

/-- The `required` flag a descriptor stores (the `_Undefined` constructor
always passes `false` to its superclass). -/
def SProp.required : SProp → Bool
  | .strP r _ _ => r
  | .numP r _ => r
  | .intP r _ => r
  | .bigP r _ => r
  | .boolP r => r
  | .undefP => false
  | .objP r _ => r
  | .arrP r => r
  | .funcP r => r

/-- The `allowedValues` list a descriptor stores (always empty for the kinds
whose constructor passes `[]` to the superclass). -/
def SProp.allowedValues : SProp → List JSVal
  | .strP _ a _ => a
  | .numP _ a => a
  | .intP _ a => a
  | .bigP _ a => a
  | _ => []

/-- The `expression` field: only `_String` has one. -/
def SProp.expression : SProp → Option Pattern
  | .strP _ _ e => e
  | _ => none

/-- The `internalSchemas` field: only `_Object` has one. -/
def SProp.internalSchemas : SProp → List Schema
  | .objP _ ss => ss
  | _ => []

/-- The object-literal lookup `({ "?": false, "!": true })[value] || false`
of `part_000`.  Computed member access applies ToPropertyKey to the key: a
symbol key stays a symbol and misses the string-keyed literal, every other
key is string-coerced, so any value whose coercion is "?" or "!" hits the
corresponding entry and everything else falls through to `false`. -/
def markLookup : JSVal → Bool
  | .sym => false
  | v =>
      if jsToString v = "?" then false
      else if jsToString v = "!" then true
      else false

/-- `convertSyntaxToBool` of `part_000`: booleans and `undefined` are
coerced with `!!value` (via `typeOf(value, ['boolean', 'undefined'])`),
every other value is looked up in the literal map. -/
def convertSyntaxToBool (value : JSVal) : Bool :=
  if typeOf value == .boolean || typeOf value == .undefined then jsTruthy value
  else markLookup value

/-- `$String(required, values)` with an allow-list argument (the default for
the `required` parameter is the string `"!"`). -/
def dollarString (required : JSVal) (values : List JSVal) : SProp :=
  .strP (convertSyntaxToBool required) values none

/-- `$String(required, expression)` with a `RegExp` argument: the allow-list
is left empty and the expression stored. -/
def dollarStringRe (required : JSVal) (expression : Pattern) : SProp :=
  .strP (convertSyntaxToBool required) [] (some expression)

/-- `$Number(required, values)`. -/
def dollarNumber (required : JSVal) (values : List JSVal) : SProp :=
  .numP (convertSyntaxToBool required) values

/-- `$BigInt(required, values)`. -/
def dollarBigInt (required : JSVal) (values : List JSVal) : SProp :=
  .bigP (convertSyntaxToBool required) values

/-- `$Boolean(required)`. -/
def dollarBoolean (required : JSVal) : SProp :=
  .boolP (convertSyntaxToBool required)

/-- `$Function(required)`. -/
def dollarFunction (required : JSVal) : SProp :=
  .funcP (convertSyntaxToBool required)

/-- `$Undefined()`. -/
def dollarUndefined : SProp := .undefP

/-! ### Construction of a `$Schema` from a raw mapping

The `$Schema` constructor walks its argument and replaces every entry that
is object-tagged and not a `$Prop` instance by a nested `$Schema` built from
it.  `RawVal` is the type of values a caller can place at a key of the raw
mapping: a descriptor instance, a plain mapping, or some other value (one
whose type tag is not `object`, e.g. a number or a string), which the
constructor's guard leaves in place unwrapped. -/

inductive RawVal where
  | prop (p : SProp)
  | map (entries : List (String × RawVal))
  | other (v : JSVal)

mutual

/-- What the `$Schema` constructor stores at one key: descriptors are kept,
plain mappings are wrapped into nested schemas eagerly, and anything else is
left in place (becoming a malformed entry). -/
def normEntry : RawVal → SEntry
  | .prop p => .prop p
  | .map m => .schema (Schema.mk (normEntries m))
  | .other v => .malformed v

def normEntries : List (String × RawVal) → List (String × SEntry)
  | [] => []
  | (k, r) :: rest => (k, normEntry r) :: normEntries rest

end

/-- `new $Schema(raw)`: the constructor, for an object-like argument. -/
def buildSchema (raw : List (String × RawVal)) : Schema :=
  Schema.mk (normEntries raw)

mutual

/-- Every value reachable by walking the schema's entries is a property
descriptor or a nested schema (no malformed entries at any depth). -/
def SEntry.isNormalized : SEntry → Bool
  | .prop _ => true
  | .schema s => Schema.isNormalized s
  | .malformed _ => false

def Schema.isNormalized : Schema → Bool
  | .mk entries => entriesNormalized entries

def entriesNormalized : List (String × SEntry) → Bool
  | [] => true
  | (_, e) :: rest => SEntry.isNormalized e && entriesNormalized rest

end

mutual

/-- The raw value placed at a key is a descriptor instance or, recursively,
a plain mapping of such values — the well-formed inputs the specification
describes. -/
def RawVal.descOrMap : RawVal → Bool
  | .prop _ => true
  | .map m => rawEntriesOk m
  | .other _ => false

def rawEntriesOk : List (String × RawVal) → Bool
  | [] => true
  | (_, r) :: rest => RawVal.descOrMap r && rawEntriesOk rest

end

end Part0

/-! ## Iteration `src/schemas.ts` (`optional` flag) -/

namespace Ts

/-- `compareTypes` of `schemas.ts`: the property type matches the value
type, or the property is optional and the value is `undefined`. -/
def compareTypes (opt : Bool) (propType varType : VariableType) : Bool :=
  propType == varType || (opt && varType == .undefined)

/-- `$Prop.validateBasics` of `schemas.ts`. -/
def validateBasics (opt : Bool) (type : VariableType)
    (allowedValues : List JSVal) (value : JSVal) : Bool :=
  if !(compareTypes opt type (typeOf value)) then false
  else if !(compareAllowedValues allowedValues value) then false
  else true

/-- The property-descriptor classes of `schemas.ts`, one variant per class.
In this iteration `_String` stores no expression and `_Object` ignores its
`content` argument, so neither carries extra state. -/
inductive TProp where
  | strP (opt : Bool) (allowedValues : List JSVal)
  | numP (opt : Bool) (allowedValues : List JSVal)
  | intP (opt : Bool) (allowedValues : List JSVal)
  | bigP (opt : Bool) (allowedValues : List JSVal)
  | boolP (opt : Bool)
  | undefP
  | objP (opt : Bool)
  | arrP (opt : Bool)
  | funcP (opt : Bool)

/-- `validate` of the descriptor classes of `schemas.ts`.  The integer
refinement fires only when the descriptor is not optional. -/
def TProp.validate : TProp → JSVal → Bool
  | .strP opt allowedValues, value =>
      if !(validateBasics opt .string allowedValues value) then false
      else true
  | .numP opt allowedValues, value =>
      if !(validateBasics opt .number allowedValues value) then false
      else true
  | .intP opt allowedValues, value =>
      if !(validateBasics opt .number allowedValues value) then false
      else if !opt && !(numberIsInteger value) then false
      else true
  | .bigP opt allowedValues, value =>
      if !(validateBasics opt .bigint allowedValues value) then false
      else true
  | .boolP opt, value =>
      if !(validateBasics opt .boolean [] value) then false
      else true
  | .undefP, value =>
      if !(validateBasics false .undefined [] value) then false
      else true
  | .objP opt, value =>
      if !(validateBasics opt .object [] value) then false
      else true
  | .arrP opt, value =>
      if !(validateBasics opt .array [] value) then false
      else true
  | .funcP opt, value =>
      if !(validateBasics opt .function [] value) then false
      else true

/-- The object-literal lookup `({ "?": true, "!": false })[value] || false`
of `schemas.ts`: the same ToPropertyKey string coercion as in `part_000`,
with the token map inverted. -/
def markLookup : JSVal → Bool
  | .sym => false
  | v =>
      if jsToString v = "?" then true
      else if jsToString v = "!" then false
      else false

/-- `convertSyntaxToBool` of `schemas.ts`: same shape as in `part_000` but
with the token map inverted. -/
def convertSyntaxToBool (value : JSVal) : Bool :=
  if typeOf value == .boolean || typeOf value == .undefined then jsTruthy value
  else markLookup value

/-- `$String(optional, values)` (this iteration has no default marker: an
omitted argument arrives as `undefined`). -/
def dollarString (opt : JSVal) (values : List JSVal) : TProp :=
  .strP (convertSyntaxToBool opt) values

/-- `$Number(optional, values)`. -/
def dollarNumber (opt : JSVal) (values : List JSVal) : TProp :=
  .numP (convertSyntaxToBool opt) values

/-- `$BigInt(optional, values)`. -/
def dollarBigInt (opt : JSVal) (values : List JSVal) : TProp :=
  .bigP (convertSyntaxToBool opt) values

/-- `$Boolean(optional)`. -/
def dollarBoolean (opt : JSVal) : TProp :=
  .boolP (convertSyntaxToBool opt)

/-- `$Function(optional)`. -/
def dollarFunction (opt : JSVal) : TProp :=
  .funcP (convertSyntaxToBool opt)

/-- `$Undefined()`. -/
def dollarUndefined : TProp := .undefP

end Ts

/-! ## Helper lemmas -/

/-- Membership of `true` in the list of alternation test results is exactly
the success of some nested schema. -/
theorem mem_mapValidate (schemas : List Part0.Schema) (v : JSVal) :
    true ∈ Part0.Schema.mapValidate schemas v ↔
      ∃ s ∈ schemas, Part0.Schema.validate s v = true := by
  induction schemas with
  | nil => simp [Part0.Schema.mapValidate]
  | cons s rest ih => simp [Part0.Schema.mapValidate, ih]

/-- The schema walk reads the candidate only at the schema's own keys: a
field under a key foreign to every entry does not change the walk. -/
theorem walkEntries_extra_field (entries : List (String × Part0.SEntry))
    (fields : List (String × JSVal)) (k : String) (w : JSVal)
    (hk : ∀ e ∈ entries, e.1 ≠ k) :
    Part0.Schema.walkEntries entries (.obj ((k, w) :: fields)) =
      Part0.Schema.walkEntries entries (.obj fields) := by
  induction entries with
  | nil => simp [Part0.Schema.walkEntries]
  | cons e rest ih =>
      obtain ⟨key, entry⟩ := e
      have hkey : key ≠ k := hk (key, entry) (List.mem_cons_self _ _)
      have hbeq : (key == k) = false := beq_eq_false_iff_ne.mpr hkey
      have hget : jsGet (.obj ((k, w) :: fields)) key = jsGet (.obj fields) key := by
        simp [jsGet, List.lookup, hbeq]
      have ih2 := ih (fun e he => hk e (List.mem_cons_of_mem _ he))
      cases entry with
      | prop p => simp [Part0.Schema.walkEntries, hget, ih2]
      | schema s => simp [Part0.Schema.walkEntries, hget, ih2]
      | malformed v => simp [Part0.Schema.walkEntries]

mutual

/-- A raw value that is a descriptor or (recursively) a plain mapping is
normalized by the constructor into a descriptor or a fully-normalized
nested schema. -/
theorem normEntry_normalized (r : Part0.RawVal) (h : Part0.RawVal.descOrMap r = true) :
    Part0.SEntry.isNormalized (Part0.normEntry r) = true := by
  cases r with
  | prop p => simp [Part0.normEntry, Part0.SEntry.isNormalized]
  | map m =>
      simp only [Part0.normEntry, Part0.SEntry.isNormalized, Part0.Schema.isNormalized]
      exact normEntries_normalized m (by simpa [Part0.RawVal.descOrMap] using h)
  | other v => simp [Part0.RawVal.descOrMap] at h

/-- List version of `normEntry_normalized`. -/
theorem normEntries_normalized (l : List (String × Part0.RawVal))
    (h : Part0.rawEntriesOk l = true) :
    Part0.entriesNormalized (Part0.normEntries l) = true := by
  cases l with
  | nil => simp [Part0.normEntries, Part0.entriesNormalized]
  | cons e rest =>
      obtain ⟨k, r⟩ := e
      simp only [Part0.rawEntriesOk, Bool.and_eq_true] at h
      simp only [Part0.normEntries, Part0.entriesNormalized, Bool.and_eq_true]
      exact ⟨normEntry_normalized r h.1, normEntries_normalized rest h.2⟩

end

/-! ## The claims -/

/-- C1, counterexample: the claim fails on the code.  The descriptor
`_Object(required = false, internalSchemas = [empty schema])` — constructible
as `$Object("?", {})` — is optional, yet its `validate` rejects `undefined`:
the alternation step runs every nested schema on the candidate, a nested
`$Schema.validate` refuses any non-object candidate, so no test succeeds and
the descriptor returns `false`. -/
theorem c1_optional_undefined_counterexample :
    Part0.SProp.required (.objP false [Part0.Schema.mk []]) = false ∧
    Part0.SProp.validate (.objP false [Part0.Schema.mk []]) .undef = false :=
  ⟨rfl, by
    simp [Part0.SProp.validate, Part0.Schema.mapValidate, Part0.Schema.validate,
      Part0.Schema.validateExc, Part0.Schema.walkEntries, Part0.compareTypes, typeOf]⟩

/-- C1, amended: an optional descriptor accepts `undefined` regardless of its
declared type and of the integer-strictness refinement, provided its
allow-list is empty, it carries no pattern refinement, and it owns no nested
schemas.  (A non-empty allow-list without `undefined`, a pattern whose test
rejects the coerced string "undefined", or a non-empty nested-schema list
each make an optional descriptor reject `undefined`.) -/
theorem c1_optional_accepts_undefined_amended (d : Part0.SProp)
    (hopt : d.required = false) (hallow : d.allowedValues = [])
    (hexpr : d.expression = none) (hnested : d.internalSchemas = []) :
    Part0.SProp.validate d .undef = true := by
  cases d <;>
    simp_all [Part0.SProp.required, Part0.SProp.allowedValues, Part0.SProp.expression,
      Part0.SProp.internalSchemas, Part0.SProp.validate, Part0.validateBasics,
      Part0.compareTypes, compareAllowedValues, typeOf, Part0.Schema.mapValidate]

/-- Witness for C1 amended, at the optional integer descriptor. -/
theorem c1_optional_accepts_undefined_amended_witness :
    (Part0.SProp.required (.intP false []) = false ∧
     Part0.SProp.allowedValues (.intP false []) = [] ∧
     Part0.SProp.expression (.intP false []) = none ∧
     Part0.SProp.internalSchemas (.intP false []) = []) ∧
    Part0.SProp.validate (.intP false []) .undef = true :=
  ⟨⟨rfl, rfl, rfl, rfl⟩,
   c1_optional_accepts_undefined_amended (.intP false []) rfl rfl rfl rfl⟩

/-- C2, counterexample: the claim fails on the code.  An integer descriptor
that is optional (`required = false` in `part_000`, `optional = true` in
`schemas.ts`) skips the `Number.isInteger` refinement entirely, so it accepts
the fractional number `7/2 = 3.5`. -/
theorem c2_integer_check_counterexample :
    Part0.SProp.validate (.intP false []) (.num (Rat.mk' 7 2)) = true ∧
    Ts.TProp.validate (.intP true []) (.num (Rat.mk' 7 2)) = true := by
  constructor <;>
    simp [Part0.SProp.validate, Part0.validateBasics, Part0.compareTypes,
      Ts.TProp.validate, Ts.validateBasics, Ts.compareTypes,
      compareAllowedValues, typeOf]

/-- C2, amended: for a required integer descriptor (in both iterations)
`validate(3)` is true, `validate(3.5)` is false — a number is accepted
exactly when it is a mathematical integer — and a string such as `"3"` is
always rejected as a type mismatch; but an optional integer descriptor skips
the integer-strictness refinement and accepts every number, fractional ones
included. -/
theorem c2_integer_descriptor_amended :
    (∀ q : Rat, Part0.SProp.validate (.intP true []) (.num q) = numberIsInteger (.num q)) ∧
    (∀ q : Rat, Part0.SProp.validate (.intP false []) (.num q) = true) ∧
    (∀ (r : Bool) (s : String), Part0.SProp.validate (.intP r []) (.str s) = false) ∧
    Part0.SProp.validate (.intP true []) (.num 3) = true ∧
    Part0.SProp.validate (.intP true []) (.num (Rat.mk' 7 2)) = false ∧
    (∀ q : Rat, Ts.TProp.validate (.intP false []) (.num q) = numberIsInteger (.num q)) ∧
    (∀ q : Rat, Ts.TProp.validate (.intP true []) (.num q) = true) ∧
    (∀ (o : Bool) (s : String), Ts.TProp.validate (.intP o []) (.str s) = false) := by
  refine ⟨?_, ?_, ?_, ?_, ?_, ?_, ?_, ?_⟩ <;>
    first
      | (intro q
         cases hq : numberIsInteger (.num q) <;>
           simp [Part0.SProp.validate, Part0.validateBasics, Part0.compareTypes,
             Ts.TProp.validate, Ts.validateBasics, Ts.compareTypes,
             compareAllowedValues, typeOf, hq])
      | (intro r s
         cases r <;>
           simp [Part0.SProp.validate, Part0.validateBasics, Part0.compareTypes,
             Ts.TProp.validate, Ts.validateBasics, Ts.compareTypes,
             compareAllowedValues, typeOf])
      | simp [Part0.SProp.validate, Part0.validateBasics, Part0.compareTypes,
          compareAllowedValues, typeOf, numberIsInteger]

/-- C3: `$Schema.validate` is a total boolean function of the schema and the
candidate (it terminates and returns a `Bool` by its very type in this
embedding), and the `try`/`catch` semantics hold: when the field walk throws
(`validateExc` is an error, e.g. on a malformed entry) `validate` returns
`false`, and when the walk completes `validate` returns its boolean. -/
theorem c3_schema_validate_never_throws (s : Part0.Schema) (v : JSVal) :
    (Part0.Schema.validateExc s v = .error () → Part0.Schema.validate s v = false) ∧
    (∀ b : Bool, Part0.Schema.validateExc s v = .ok b → Part0.Schema.validate s v = b) := by
  constructor
  · intro h; simp [Part0.Schema.validate, h]
  · intro b h; simp [Part0.Schema.validate, h]

/-- Witness for C3: a schema holding a malformed entry (the number 5 at key
"a") makes the walk throw, and `validate` converts that to `false`. -/
theorem c3_schema_validate_never_throws_witness :
    Part0.Schema.validateExc (Part0.Schema.mk [("a", .malformed (.num 5))]) (.obj []) = .error () ∧
    Part0.Schema.validate (Part0.Schema.mk [("a", .malformed (.num 5))]) (.obj []) = false := by
  have h : Part0.Schema.validateExc (Part0.Schema.mk [("a", .malformed (.num 5))]) (.obj [])
      = .error () := by
    simp [Part0.Schema.validateExc, Part0.Schema.walkEntries, typeOf]
  exact ⟨h, (c3_schema_validate_never_throws _ _).1 h⟩

/-- C4: an `_Object` descriptor validates a candidate exactly when the shared
object-type check passes (type tag `object`, or optional and tag `undefined`
— that is `compareTypes`) and either it owns no nested schemas or at least
one nested schema validates the entire candidate. -/
theorem c4_object_alternation (required : Bool) (schemas : List Part0.Schema) (v : JSVal) :
    Part0.SProp.validate (.objP required schemas) v = true ↔
      (Part0.compareTypes required .object (typeOf v) = true ∧
        (schemas = [] ∨ ∃ s ∈ schemas, Part0.Schema.validate s v = true)) := by
  cases hct : Part0.compareTypes required .object (typeOf v)
  · simp [Part0.SProp.validate, hct]
  · cases schemas with
    | nil => simp [Part0.SProp.validate, hct, Part0.Schema.mapValidate]
    | cons s rest =>
        rw [← mem_mapValidate]
        simp [Part0.SProp.validate, hct, Part0.Schema.mapValidate]

/-- C5: `typeOf` classifies arrays as "array" and `null` as "null" — never
"object" for either — and classifies `undefined` as "undefined", a tag
distinct from "null". -/
theorem c5_typeof_array_null_undefined :
    (∀ xs : List JSVal, typeOf (.arr xs) = .array) ∧
    typeOf .null = .null ∧
    typeOf .undef = .undefined ∧
    (∀ xs : List JSVal, typeOf (.arr xs) ≠ .object) ∧
    typeOf .null ≠ .object ∧
    VariableType.undefined ≠ VariableType.null := by
  refine ⟨fun xs => rfl, rfl, rfl, fun xs => ?_, ?_, ?_⟩ <;> simp [typeOf]

/-- C6: the `$Schema` constructor normalizes eagerly and recursively.  When
every supplied entry is a descriptor instance or (recursively) a plain
mapping, the constructed schema contains, at every depth, only property
descriptors and nested schemas; entry-wise, a descriptor is stored unchanged
and a plain mapping is stored as the schema recursively constructed from it
— all of this at construction time (the constructor is a pure function of
the raw mapping; validation never rewrites entries). -/
theorem c6_constructor_normalizes_eagerly (raw : List (String × Part0.RawVal))
    (h : Part0.rawEntriesOk raw = true) :
    Part0.Schema.isNormalized (Part0.buildSchema raw) = true ∧
    (∀ p : Part0.SProp, Part0.normEntry (.prop p) = .prop p) ∧
    (∀ m : List (String × Part0.RawVal),
      Part0.normEntry (.map m) = .schema (Part0.buildSchema m)) := by
  refine ⟨?_, fun p => by simp [Part0.normEntry],
    fun m => by simp [Part0.normEntry, Part0.buildSchema]⟩
  simpa [Part0.buildSchema, Part0.Schema.isNormalized] using normEntries_normalized raw h

/-- Witness for C6, at a two-entry raw mapping with one nested mapping. -/
theorem c6_constructor_normalizes_eagerly_witness :
    Part0.rawEntriesOk
      [("a", .prop (.numP true [])), ("b", .map [("c", .prop (.boolP true))])] = true ∧
    Part0.Schema.isNormalized (Part0.buildSchema
      [("a", .prop (.numP true [])), ("b", .map [("c", .prop (.boolP true))])]) = true := by
  have h : Part0.rawEntriesOk
      [("a", .prop (.numP true [])), ("b", .map [("c", .prop (.boolP true))])] = true := by
    simp [Part0.rawEntriesOk, Part0.RawVal.descOrMap]
  exact ⟨h, (c6_constructor_normalizes_eagerly _ h).1⟩

/-- C7: supplying a defined, non-array second argument to `typeOf` or
`typesOf` throws a `TypeError`; supplying an array second argument yields a
boolean, never a throw. -/
theorem c7_nonarray_types_argument_throws (value : JSVal) (values : List JSVal)
    (types : JSVal) :
    (typeOf types ≠ .undefined → (∀ xs, types ≠ JSVal.arr xs) →
      (∃ e, typeOfImpl value types = .error e) ∧
      (∃ e, typesOfImpl values types = .error e)) ∧
    (∀ ts, types = JSVal.arr ts →
      (∃ b, typeOfImpl value types = .ok (.inr b)) ∧
      (∃ b, typesOfImpl values types = .ok (.inr b))) := by
  constructor
  · intro hdef harr
    cases types <;>
      first
        | exact absurd rfl hdef
        | exact absurd rfl (harr _)
        | exact ⟨⟨_, rfl⟩, ⟨_, rfl⟩⟩
  · rintro ts rfl
    exact ⟨⟨_, rfl⟩, ⟨_, rfl⟩⟩

/-- Witness for C7: the string "nope" as second argument throws, the array
["number"] yields a boolean. -/
theorem c7_nonarray_types_argument_throws_witness :
    (∃ e, typeOfImpl (.num 3) (.str "nope") = .error e) ∧
    (∃ b, typesOfImpl [.num 3] (.arr [.str "number"]) = .ok (.inr b)) :=
  ⟨((c7_nonarray_types_argument_throws (.num 3) [.num 3] (.str "nope")).1
      (by decide) (fun _ => by simp)).1,
   ((c7_nonarray_types_argument_throws (.num 3) [.num 3] (.arr [.str "number"])).2
      [.str "number"] rfl).2⟩

/-- C8, counterexample: the claim fails on the code.  On both sugar tokens
the two iterations agree observably: `$String("?")` accepts `undefined` in
both iterations and `$String("!")` rejects it in both, so no token makes a
descriptor accept `undefined` in one iteration and reject it in the other. -/
theorem c8_tokens_agree_counterexample :
    Part0.SProp.validate (Part0.dollarString (.str "?") []) .undef = true ∧
    Ts.TProp.validate (Ts.dollarString (.str "?") []) .undef = true ∧
    Part0.SProp.validate (Part0.dollarString (.str "!") []) .undef = false ∧
    Ts.TProp.validate (Ts.dollarString (.str "!") []) .undef = false := by
  refine ⟨?_, ?_, ?_, ?_⟩ <;>
    simp [Part0.dollarString, Ts.dollarString, Part0.convertSyntaxToBool,
      Ts.convertSyntaxToBool, Part0.markLookup, Ts.markLookup, jsTruthy, jsToString,
      Part0.SProp.validate, Ts.TProp.validate, Part0.validateBasics, Ts.validateBasics,
      Part0.compareTypes, Ts.compareTypes, compareAllowedValues, typeOf]

/-- C8, amended: the iterations store opposite boolean values for the tokens
("?" maps to false and "!" to true in the `required` flag of `part_000`,
"?" to true and "!" to false in the `optional` flag of `schemas.ts`), but
since the stored flag's polarity is also opposite, both tokens have the same
observable meaning in both iterations.  The same constructor call does
diverge between iterations for a boolean mark: `$String(true)` rejects
`undefined` in `part_000` (true means required) and accepts it in
`schemas.ts` (true means optional). -/
theorem c8_token_semantics_amended :
    (Part0.convertSyntaxToBool (.str "?") = false ∧
     Ts.convertSyntaxToBool (.str "?") = true) ∧
    (Part0.convertSyntaxToBool (.str "!") = true ∧
     Ts.convertSyntaxToBool (.str "!") = false) ∧
    (Part0.SProp.validate (Part0.dollarString (.str "?") []) .undef =
      Ts.TProp.validate (Ts.dollarString (.str "?") []) .undef) ∧
    (Part0.SProp.validate (Part0.dollarString (.str "!") []) .undef =
      Ts.TProp.validate (Ts.dollarString (.str "!") []) .undef) ∧
    Part0.SProp.validate (Part0.dollarString (.bool true) []) .undef = false ∧
    Ts.TProp.validate (Ts.dollarString (.bool true) []) .undef = true := by
  refine ⟨⟨?_, ?_⟩, ⟨?_, ?_⟩, ?_, ?_, ?_, ?_⟩ <;>
    simp [Part0.dollarString, Ts.dollarString, Part0.convertSyntaxToBool,
      Ts.convertSyntaxToBool, Part0.markLookup, Ts.markLookup, jsTruthy, jsToString,
      Part0.SProp.validate, Ts.TProp.validate, Part0.validateBasics, Ts.validateBasics,
      Part0.compareTypes, Ts.compareTypes, compareAllowedValues, typeOf]

/-- C9: schema validation constrains only the keys named in the schema:
prepending to an object candidate a field whose key appears in none of the
schema's entries leaves the validation verdict unchanged. -/
theorem c9_extra_fields_ignored (s : Part0.Schema) (fields : List (String × JSVal))
    (k : String) (w : JSVal)
    (hk : k ∉ (Part0.Schema.entries s).map Prod.fst) :
    Part0.Schema.validate s (.obj ((k, w) :: fields)) =
      Part0.Schema.validate s (.obj fields) := by
  cases s with
  | mk entries =>
      have hw := walkEntries_extra_field entries fields k w (by
        intro e he h
        exact hk (h ▸ List.mem_map_of_mem Prod.fst he))
      simp only [Part0.Schema.validate, Part0.Schema.validateExc, typeOf,
        Part0.Schema.entries] at *
      rw [hw]

/-- Witness for C9: a surplus field "b" does not change validation against a
single-field schema over "a". -/
theorem c9_extra_fields_ignored_witness :
    ("b" ∉ (Part0.Schema.entries (Part0.Schema.mk [("a", .prop (.numP true []))])).map
        Prod.fst) ∧
    Part0.Schema.validate (Part0.Schema.mk [("a", .prop (.numP true []))])
        (.obj [("b", .str "z"), ("a", .num 1)]) =
      Part0.Schema.validate (Part0.Schema.mk [("a", .prop (.numP true []))])
        (.obj [("a", .num 1)]) :=
  ⟨by simp [Part0.Schema.entries],
   c9_extra_fields_ignored _ _ _ _ (by simp [Part0.Schema.entries])⟩

